import Mathlib

/-!
# ProxyNest — shallow embedding of the assignment and lifecycle engine

This file embeds the core of `proxynest.py` (class `ProxyManagement`) as
executable Lean definitions and proves properties of the embedded code.

Modelling conventions:
* A MongoDB collection is a `List` of documents; `update_one` updates the
  first document matching a filter and reports `modified_count = 1` exactly
  when the matched document actually changed (MongoDB semantics for `$set`
  and `$unset`).
* Timestamps are integers (minutes on a common UTC clock); all the code does
  with datetimes is compare them and subtract `timedelta` values.
* The `instance_ids` field of a proxy document can be a BSON object (a list
  of key/timestamp pairs — BSON objects have distinct keys), a string, or
  null/absent; the code's `$where` JavaScript predicate and the dict-shape
  guards depend on that distinction.
* A Python `dict` is an ordered key/value list with distinct keys; insertion
  of an existing key updates it in place, otherwise appends.
-/

namespace ProxyNest

/-- Value stored in a proxy document's `instance_ids` field.
`obj m` is a BSON object mapping instance-id strings to timestamps,
`str s` a (malformed) string value, `null` a null or absent field
(both are falsy in the JavaScript `$where` predicate, neither matches a
string-equality query, and `$unset` of a subpath of either is a no-op). -/
inductive InstVal where
  | obj (m : List (String × Int))
  | str (s : String)
  | null
deriving DecidableEq, Repr

/-- The legacy scalar `instance_id` field of a proxy document: absent from
the document, explicitly null, or a string. (`$set {instance_id: None}`
modifies the document unless the field is already null.) -/
inductive InstScalar where
  | absent
  | nullv
  | strv (s : String)
deriving DecidableEq, Repr

/-- A document of the `proxies` collection (fields of `ProxyModel` that the
engine reads or writes). -/
structure ProxyDoc where
  oid : String
  ip : String
  port : Nat
  username : Option String
  password : Option String
  protocol : String
  status : String
  country_code : Option String
  tags : List String
  instance_ids : InstVal
  instance_id : InstScalar
  last_used : Option Int
deriving DecidableEq, Repr

/-- The cached settings attributes `load_settings` installs on the
`ProxyManagement` object (`self.inactive_proxy_timeout`, ...). -/
structure CachedSettings where
  inactive_proxy_timeout : Int
  threshold_time_minutes : Int
  background_check_proxies_interval : Int
  max_instances_per_proxy : Int
  max_proxies_per_instance : Int
deriving DecidableEq, Repr

/-- `update_one(filter, {$set/$unset ...})` on a list-modelled collection:
rewrite the first document satisfying `pred` with `f`; the returned number
is `modified_count` (1 when the matched document changed, else 0). -/
def updateOne (db : List ProxyDoc) (pred : ProxyDoc → Bool) (f : ProxyDoc → ProxyDoc) :
    List ProxyDoc × Nat :=
  match db with
  | [] => ([], 0)
  | d :: rest =>
    if pred d then
      (f d :: rest, if f d = d then 0 else 1)
    else
      let r := updateOne rest pred f
      (d :: r.1, r.2)

/-- Python `d[k] = v` on an ordered dict: update the key in place if present,
otherwise append the pair. MongoDB subfield `$set`/`$currentDate` on a BSON
object has the same semantics. -/
def setKey : List (String × Int) → String → Int → List (String × Int)
  | [], k, v => [(k, v)]
  | (k', v') :: rest, k, v =>
    if k' = k then (k, v) :: rest else (k', v') :: setKey rest k v

/-- Lookup of a key in an ordered key/value list. -/
def lookupKey (m : List (String × Int)) (k : String) : Option Int :=
  (m.find? (fun e => e.1 = k)).map (fun e => e.2)

/-- MongoDB equality match of a string query value `q` against a field
holding `v` (used by `find({"instance_ids": instance_id})`, line 259):
a string equals a stored string, never a BSON object or null. -/
def instValEqStr (v : InstVal) (q : String) : Bool :=
  match v with
  | .str s => s = q
  | _ => false

/-- Truthiness of `this.instance_ids` in the JavaScript `$where` predicate
(line 269): objects are truthy, a string is truthy iff non-empty, null and
undefined are falsy. -/
def jsTruthy : InstVal → Bool
  | .obj _ => true
  | .str s => s ≠ ""
  | .null => false

/-- `Object.keys(this.instance_ids).length` in the `$where` predicate:
number of keys of an object (BSON object keys are distinct), number of
character indices of a string, 0 otherwise. -/
def jsKeysLen : InstVal → Nat
  | .obj m => m.length
  | .str s => s.length
  | .null => 0

/-- The candidate query of `assign_proxy_to_instance` (lines 267-275):
`status = "UP"`, the `$where` capacity predicate, `$all` on tags when a
non-empty tag list was passed, equality on `country_code` (upper-cased)
when a non-empty country code was passed (Python truthiness of the
optional arguments). -/
def candidatePred (s : CachedSettings) (country_code : Option String)
    (tags : Option (List String)) (p : ProxyDoc) : Bool :=
  p.status = "UP"
  && jsTruthy p.instance_ids
  && (jsKeysLen p.instance_ids : Int) < s.max_instances_per_proxy
  && (match tags with
      | some ts => ts.isEmpty || ts.all (fun t => p.tags.contains t)
      | none => true)
  && (match country_code with
      | some c => c = "" || p.country_code = some c.toUpper
      | none => true)

/-- The pre-prune of the candidate's lease map (lines 294-297): keep exactly
the entries strictly newer than `now − inactive_proxy_timeout` minutes. -/
def pruneLeases (timeoutMinutes now : Int) (m : List (String × Int)) :
    List (String × Int) :=
  m.filter (fun e => now - timeoutMinutes < e.2)

/-- The commit write of `assign_proxy_to_instance` (lines 301-304):
`update_one({'_id': id}, {'$set': {'instance_ids': newMap}})` — filtered by
`_id` only. -/
def commitAssignWrite (db : List ProxyDoc) (pid : String)
    (newMap : List (String × Int)) : List ProxyDoc × Nat :=
  updateOne db (fun d => d.oid = pid) (fun d => { d with instance_ids := .obj newMap })

/-- `update_last_used(proxy_id)` with no instance id (lines 578-591):
`$currentDate {last_used: true}` filtered by `_id`. -/
def refreshLastUsedPlain (db : List ProxyDoc) (pid : String) (now : Int) :
    List ProxyDoc × Nat :=
  updateOne db (fun d => d.oid = pid) (fun d => { d with last_used := some now })

/-- Result of `assign_proxy_to_instance`: the success payload dict, an error
dict, or an unhandled Python exception (e.g. `.items()` on a non-dict). -/
inductive AssignResult where
  | success (message proxy_id ip : String) (port : Nat)
      (username password : Option String) (protocol : String)
  | error (message : String)
  | crash
deriving DecidableEq, Repr

/-- The "no available proxies" message construction (lines 280-288). -/
def noProxiesMessage (country_code : Option String) (tags : Option (List String)) :
    String :=
  let base := "No available proxies found"
  let hasCC : Bool := match country_code with | some c => c ≠ "" | none => false
  let hasTags : Bool := match tags with | some ts => !ts.isEmpty | none => false
  let base := if hasCC then base ++ " for country code" else base
  if hasTags then
    if hasCC then base ++ " and tags" else base ++ " for tags"
  else base

/-- The tail of `assign_proxy_to_instance` once a candidate was chosen
(lines 291-322): pre-prune the candidate's lease map, insert the new lease,
issue the commit write, and on `modified_count == 1` refresh `last_used`
and return the success payload; a non-dict `instance_ids` raises
(`.items()` on a non-dict). -/
def assignWithCandidate (s : CachedSettings) (db : List ProxyDoc)
    (instance_id : String) (now : Int) (proxy : ProxyDoc) :
    AssignResult × List ProxyDoc :=
  match proxy.instance_ids with
  | .obj m =>
    if (commitAssignWrite db proxy.oid
        (setKey (pruneLeases s.inactive_proxy_timeout now m) instance_id now)).2 = 1 then
      (.success ("Proxy " ++ proxy.oid ++ " assigned to instance " ++ instance_id)
        proxy.oid proxy.ip proxy.port proxy.username proxy.password proxy.protocol,
      (refreshLastUsedPlain (commitAssignWrite db proxy.oid
        (setKey (pruneLeases s.inactive_proxy_timeout now m) instance_id now)).1
        proxy.oid now).1)
    else
      (.error ("Failed to assign proxy " ++ proxy.oid ++ " to instance " ++ instance_id),
      (commitAssignWrite db proxy.oid
        (setKey (pruneLeases s.inactive_proxy_timeout now m) instance_id now)).1)
  | _ => (.crash, db)

/-- `assign_proxy_to_instance(instance_id, country_code, tags)`
(lines 257-322), one sequential run at time `now` against collection `db`
with cached settings `s`: the saturation pre-check on
`find({"instance_ids": instance_id})`, candidate selection, then
`assignWithCandidate`. Returns the response dict and the collection
afterwards. -/
def runAssign (s : CachedSettings) (db : List ProxyDoc) (instance_id : String)
    (country_code : Option String) (tags : Option (List String)) (now : Int) :
    AssignResult × List ProxyDoc :=
  if s.max_proxies_per_instance
      ≤ ((db.filter (fun p => instValEqStr p.instance_ids instance_id)).length : Int) then
    (.error ("Instance " ++ instance_id ++
      " is already assigned to the maximum allowed number of proxies."), db)
  else
    match db.find? (candidatePred s country_code tags) with
    | none => (.error (noProxiesMessage country_code tags), db)
    | some proxy => assignWithCandidate s db instance_id now proxy

/-- The `$unset` update built by one iteration body of `clear_inactive_proxies`
(lines 345-352): remove each key of `expiredKeys` from the document's
`instance_ids` object (a no-op on a non-object value), and additionally
unset `last_used` when `alsoLastUsed` (the sweep adds that path when every
lease of the snapshot was expired). -/
def applyExpiryUnset (expiredKeys : List String) (alsoLastUsed : Bool)
    (d : ProxyDoc) : ProxyDoc :=
  match d.instance_ids, alsoLastUsed with
  | .obj m, true =>
    { d with instance_ids := .obj (m.filter (fun e => e.1 ∉ expiredKeys)),
             last_used := none }
  | .obj m, false =>
    { d with instance_ids := .obj (m.filter (fun e => e.1 ∉ expiredKeys)) }
  | _, true => { d with last_used := none }
  | _, false => d

/-- One loop-body step of the expiry sweep for one snapshot document `snap`
(lines 330-352): skip non-dict `instance_ids`; compute the expired entries
(`last_used < now − threshold_time_minutes`); when any are expired, issue
`update_one({'_id': snap._id}, update_query)` against the current
collection `db`. -/
def sweepUpdateFor (nowMinusThreshold : Int) (snap : ProxyDoc)
    (db : List ProxyDoc) : List ProxyDoc :=
  match snap.instance_ids with
  | .obj m =>
    if (m.filter (fun e => e.2 < nowMinusThreshold)).isEmpty then db
    else (updateOne db (fun d => d.oid = snap.oid)
      (applyExpiryUnset ((m.filter (fun e => e.2 < nowMinusThreshold)).map (fun e => e.1))
        ((m.filter (fun e => e.2 < nowMinusThreshold)).length = m.length))).1
  | _ => db

/-- One full iteration of `clear_inactive_proxies` at time `now`
(lines 326-355): read the snapshot of all proxies, then for each snapshot
document issue its expiry update against the evolving collection. -/
def clearInactiveOnce (threshold_time_minutes now : Int)
    (db : List ProxyDoc) : List ProxyDoc :=
  db.foldl (fun acc p => sweepUpdateFor (now - threshold_time_minutes) p acc) db

/-- The pointwise effect of the expiry sweep on a document that no other
snapshot entry aliases (same computation as `sweepUpdateFor` when the
targeted document is `snap` itself). -/
def sweepDoc (nowMinusThreshold : Int) (p : ProxyDoc) : ProxyDoc :=
  match p.instance_ids with
  | .obj m =>
    if (m.filter (fun e => e.2 < nowMinusThreshold)).isEmpty then p
    else applyExpiryUnset ((m.filter (fun e => e.2 < nowMinusThreshold)).map (fun e => e.1))
      ((m.filter (fun e => e.2 < nowMinusThreshold)).length = m.length) p
  | _ => p

/-- `clear_instance_id(proxy_id, instance_id)` (lines 242-255): first try
`update_one({_id, instance_ids: {$type: "object"}}, {$unset: {instance_ids.<iid>: ""}})`;
if that modified a document return `True`; otherwise run the fallback
`update_one({_id}, {$set: {instance_id: None}})` and report whether it
modified a document. -/
def clearInstanceId (db : List ProxyDoc) (pid instance_id : String) :
    List ProxyDoc × Bool :=
  let r1 := updateOne db
    (fun d => d.oid = pid && (match d.instance_ids with | .obj _ => true | _ => false))
    (fun d => match d.instance_ids with
      | .obj m => { d with instance_ids := .obj (m.filter (fun e => e.1 ≠ instance_id)) }
      | _ => d)
  if r1.2 = 1 then (r1.1, true)
  else
    let r2 := updateOne r1.1 (fun d => d.oid = pid)
      (fun d => { d with instance_id := .nullv })
    (r2.1, r2.2 = 1)

/-- Result dict returned by `clear_instance_from_specific_proxy`
(lines 232-240): success/error string depending on `clear_instance_id`. -/
def clearInstanceFromSpecificProxy (db : List ProxyDoc) (pid instance_id : String) :
    List ProxyDoc × Bool :=
  clearInstanceId db pid instance_id

/-- `$currentDate {instance_ids.<iid>: true}` applied to a matched document
(line 582): sets the subfield of the `instance_ids` object to the server's
current time. MongoDB raises an error when the field holds a non-object
value (modelled as `none`); theorems below only use object-shaped
documents. -/
def setLeaseTime (instance_id : String) (now : Int) (d : ProxyDoc) :
    Option ProxyDoc :=
  match d.instance_ids with
  | .obj m => some { d with instance_ids := .obj (setKey m instance_id now) }
  | _ => none

/-- `update_last_used(proxy_id, instance_id?)` (lines 578-591): with an
instance id, `$currentDate` on `instance_ids.<instance_id>`; without,
`$currentDate` on `last_used`; returns `modified_count > 0`. `none` models
a MongoDB update error (dotted path through a non-object). -/
def updateLastUsed (db : List ProxyDoc) (pid : String)
    (instance_id : Option String) (now : Int) :
    Option (List ProxyDoc × Bool) :=
  match instance_id with
  | some iid =>
    match db.find? (fun d => d.oid = pid) with
    | none => some (db, false)
    | some d =>
      match setLeaseTime iid now d with
      | none => none
      | some _ =>
        let r := updateOne db (fun x => x.oid = pid)
          (fun x => (setLeaseTime iid now x).getD x)
        some (r.1, r.2 > 0)
  | none =>
    let r := refreshLastUsedPlain db pid now
    some (r.1, r.2 > 0)

/-- Result of `add_proxy` (lines 417-443). -/
inductive AddResult where
  | success (oid : String)
  | httpError (code : Nat) (detail : String)
deriving DecidableEq, Repr

/-- `add_proxy(proxy)` (lines 417-443): look for an existing document with
the same `ip`, `port` and `protocol` (MongoDB string equality — exact,
case-sensitive); if found raise HTTP 400, else insert the document. No
canonicalization of `protocol` happens anywhere on this path (`ProxyModel`
stores the string as given). -/
def addProxy (db : List ProxyDoc) (p : ProxyDoc) : AddResult × List ProxyDoc :=
  match db.find? (fun q => q.ip = p.ip && q.port = p.port && q.protocol = p.protocol) with
  | some _ =>
    (.httpError 400 "A proxy with the same IP, port, and protocol already exists.", db)
  | none => (.success p.oid, db ++ [p])

/-- The singleton `proxy_manager_settings` document: each field may be
absent (a partial document can arise from the upsert path of
`update_settings`). -/
structure SettingsDoc where
  inactive_proxy_timeout : Option Int
  threshold_time_minutes : Option Int
  background_check_proxies_interval : Option Int
  max_instances_per_proxy : Option Int
  max_proxies_per_instance : Option Int
deriving DecidableEq, Repr

/-- The `default_settings` dict of `load_settings` (lines 128-134). -/
def defaultSettingsDoc : SettingsDoc :=
  { inactive_proxy_timeout := some 10
    threshold_time_minutes := some 10
    background_check_proxies_interval := some 60
    max_instances_per_proxy := some 2
    max_proxies_per_instance := some 1 }

/-- A settings document with every field present, as cached attributes. -/
def cachedOfDoc (s : SettingsDoc) : Option CachedSettings :=
  match s.inactive_proxy_timeout, s.threshold_time_minutes,
      s.background_check_proxies_interval, s.max_instances_per_proxy,
      s.max_proxies_per_instance with
  | some a, some b, some c, some d, some e =>
    some { inactive_proxy_timeout := a, threshold_time_minutes := b,
           background_check_proxies_interval := c, max_instances_per_proxy := d,
           max_proxies_per_instance := e }
  | _, _, _, _, _ => none

/-- `load_settings` (lines 127-147): if no settings document exists, insert
the defaults and cache them; otherwise read the five keys into the cached
attributes (`none` models the `KeyError` crash on a partial document). -/
def loadSettings (store : Option SettingsDoc) :
    Option (Option SettingsDoc × CachedSettings) :=
  match store with
  | none => some (some defaultSettingsDoc, (cachedOfDoc defaultSettingsDoc).getD
      { inactive_proxy_timeout := 10, threshold_time_minutes := 10,
        background_check_proxies_interval := 60, max_instances_per_proxy := 2,
        max_proxies_per_instance := 1 })
  | some s =>
    match cachedOfDoc s with
    | some c => some (some s, c)
    | none => none

/-- The update patch: `SettingsModel` after `model_dump(exclude_none=True)`
(line 179) — same shape as a partial settings document. -/
abbrev SettingsPatch := SettingsDoc

/-- Is the effective patch dict empty (line 181)? -/
def patchIsEmpty (p : SettingsPatch) : Bool :=
  p.inactive_proxy_timeout.isNone && p.threshold_time_minutes.isNone
  && p.background_check_proxies_interval.isNone
  && p.max_instances_per_proxy.isNone && p.max_proxies_per_instance.isNone

/-- MongoDB `$set` of the patch fields onto the stored document
(line 184): each provided field replaces the stored one. -/
def mergeSettings (prev : SettingsDoc) (patch : SettingsPatch) : SettingsDoc :=
  { inactive_proxy_timeout := patch.inactive_proxy_timeout.orElse
      (fun _ => prev.inactive_proxy_timeout)
    threshold_time_minutes := patch.threshold_time_minutes.orElse
      (fun _ => prev.threshold_time_minutes)
    background_check_proxies_interval := patch.background_check_proxies_interval.orElse
      (fun _ => prev.background_check_proxies_interval)
    max_instances_per_proxy := patch.max_instances_per_proxy.orElse
      (fun _ => prev.max_instances_per_proxy)
    max_proxies_per_instance := patch.max_proxies_per_instance.orElse
      (fun _ => prev.max_proxies_per_instance) }

/-- Outcome of `update_settings`. -/
inductive SettingsOutcome where
  | success (cached : CachedSettings)
  | httpError (code : Nat) (detail : String)
  | crash
deriving DecidableEq, Repr

/-- `update_settings(patch)` (lines 177-197): empty effective patch → HTTP
400, store untouched. Otherwise `update_one({}, {$set: patch}, upsert=True)`:
with no stored document the upsert inserts the patch as a new document and
`matched_count = 0` raises HTTP 404 — after the write has landed, and
without calling `load_settings`. With a stored document the patch is merged,
then `load_settings` refreshes the cached attributes. -/
def updateSettings (store : Option SettingsDoc) (patch : SettingsPatch) :
    Option SettingsDoc × SettingsOutcome :=
  if patchIsEmpty patch then
    (store, .httpError 400 "No updates provided")
  else
    match store with
    | none => (some patch, .httpError 404 "Settings not found")
    | some prev =>
      let merged := mergeSettings prev patch
      match loadSettings (some merged) with
      | none => (some merged, .crash)
      | some (store2, cached) => (store2, .success cached)

/-- Number of proxies whose `instance_ids` object contains a lease key for
`instance_id` (the set the spec's per-instance cap quantifies over). -/
def countBearingLease (db : List ProxyDoc) (instance_id : String) : Nat :=
  (db.filter (fun p => match p.instance_ids with
    | .obj m => m.any (fun e => e.1 = instance_id)
    | _ => false)).length

/-- A concrete UP proxy document used in the concrete runs below. -/
def mkProxy (oid : String) (iv : InstVal) : ProxyDoc :=
  { oid := oid, ip := "1.2.3.4", port := 8080, username := none, password := none,
    protocol := "HTTP", status := "UP", country_code := none, tags := [],
    instance_ids := iv, instance_id := .absent, last_used := none }

/-- The default settings as cached attributes (what `load_settings` installs
on a fresh deployment). -/
def exampleSettings : CachedSettings :=
  { inactive_proxy_timeout := 10, threshold_time_minutes := 10,
    background_check_proxies_interval := 60, max_instances_per_proxy := 2,
    max_proxies_per_instance := 1 }

/-! ## Helper lemmas about the list-modelled store operations -/

theorem setKey_length_le (m : List (String × Int)) (k : String) (v : Int) :
    (setKey m k v).length ≤ m.length + 1 := by
  induction m with
  | nil => simp [setKey]
  | cons e rest ih =>
    obtain ⟨a, b⟩ := e
    by_cases h : a = k
    · simp [setKey, h]
    · simp [setKey, h]
      omega

theorem lookupKey_setKey_self (m : List (String × Int)) (k : String) (v : Int) :
    lookupKey (setKey m k v) k = some v := by
  induction m with
  | nil => simp [setKey, lookupKey]
  | cons e rest ih =>
    obtain ⟨a, b⟩ := e
    by_cases h : a = k
    · simp [setKey, h, lookupKey]
    · simpa [setKey, h, lookupKey] using ih

theorem find?_decomp {α : Type} (l : List α) (p : α → Bool) (a : α)
    (h : l.find? p = some a) :
    ∃ l1 l2, l = l1 ++ a :: l2 ∧ ∀ x ∈ l1, p x = false := by
  induction l with
  | nil => simp at h
  | cons x xs ih =>
    by_cases hx : p x
    · refine ⟨[], xs, ?_, by simp⟩
      rw [List.find?_cons_of_pos _ hx] at h
      simp_all
    · rw [List.find?_cons_of_neg _ (by simpa using hx)] at h
      obtain ⟨l1, l2, rfl, hl⟩ := ih h
      refine ⟨x :: l1, l2, rfl, ?_⟩
      intro y hy
      rcases List.mem_cons.mp hy with rfl | hy
      · simpa using hx
      · exact hl y hy

theorem find?_appendCons {α : Type} (l1 l2 : List α) (a : α) (p : α → Bool)
    (h1 : ∀ x ∈ l1, p x = false) (ha : p a = true) :
    (l1 ++ a :: l2).find? p = some a := by
  induction l1 with
  | nil => simp [List.find?_cons_of_pos _ ha]
  | cons x xs ih =>
    have hx := h1 x (by simp)
    rw [List.cons_append, List.find?_cons_of_neg _ (by simp [hx])]
    exact ih (fun y hy => h1 y (by simp [hy]))

theorem find?_and_of_find? {α : Type} (l : List α) (p q : α → Bool) (a : α)
    (h : l.find? p = some a) (hq : q a = true) :
    l.find? (fun x => p x && q x) = some a := by
  have ha : p a = true := List.find?_some h
  obtain ⟨l1, l2, rfl, hl⟩ := find?_decomp l p a h
  exact find?_appendCons l1 l2 a _ (fun x hx => by simp [hl x hx]) (by simp [ha, hq])

theorem updateOne_no_match (db : List ProxyDoc) (pred : ProxyDoc → Bool)
    (f : ProxyDoc → ProxyDoc) (h : ∀ d ∈ db, pred d = false) :
    updateOne db pred f = (db, 0) := by
  induction db with
  | nil => rfl
  | cons d rest ih =>
    have hd := h d (by simp)
    simp [updateOne, hd, ih (fun x hx => h x (by simp [hx]))]

theorem updateOne_appendCons (l1 l2 : List ProxyDoc) (a : ProxyDoc)
    (pred : ProxyDoc → Bool) (f : ProxyDoc → ProxyDoc)
    (h1 : ∀ x ∈ l1, pred x = false) (ha : pred a = true) :
    updateOne (l1 ++ a :: l2) pred f
      = (l1 ++ f a :: l2, if f a = a then 0 else 1) := by
  induction l1 with
  | nil => simp [updateOne, ha]
  | cons x xs ih =>
    have hx := h1 x (by simp)
    have ih2 := ih (fun y hy => h1 y (by simp [hy]))
    simp [updateOne, hx, ih2]

theorem setInstanceIds_eq_self (d : ProxyDoc) (x : InstVal) :
    ({ d with instance_ids := x } = d) ↔ x = d.instance_ids := by
  cases d
  simp [ProxyDoc.mk.injEq]

theorem setScalarId_eq_self (d : ProxyDoc) (x : InstScalar) :
    ({ d with instance_id := x } = d) ↔ x = d.instance_id := by
  cases d
  simp [ProxyDoc.mk.injEq]

/-! ## Claim theorems -/

/-- C1: whenever `assign_proxy_to_instance` returns success, the assigned
proxy's `instance_ids` map in the resulting collection holds at most
`max_instances_per_proxy` entries: the candidate is selected only with
`|instance_ids| < max_instances_per_proxy`, stale leases are pruned, and
one entry is inserted. -/
theorem assign_capacity_bound
    (s : CachedSettings) (db : List ProxyDoc) (iid : String)
    (cc : Option String) (tags : Option (List String)) (now : Int)
    (res : AssignResult) (db2 : List ProxyDoc)
    (hrun : runAssign s db iid cc tags now = (res, db2))
    (msg pid ip : String) (port : Nat) (u pw : Option String) (proto : String)
    (hres : res = AssignResult.success msg pid ip port u pw proto)
    (p : ProxyDoc)
    (hp : db2.find? (fun x => x.oid = pid) = some p) :
    ∃ m, p.instance_ids = InstVal.obj m ∧ (m.length : Int) ≤ s.max_instances_per_proxy := by
  subst hres
  unfold runAssign at hrun
  split at hrun
  · exact absurd (congrArg Prod.fst hrun) (by simp)
  · split at hrun
    · exact absurd (congrArg Prod.fst hrun) (by simp)
    · rename_i proxy hfind
      unfold assignWithCandidate at hrun
      split at hrun
      · rename_i m heq
        split at hrun
        · rename_i hmod
          have hpair := hrun
          rw [Prod.mk.injEq] at hpair
          obtain ⟨hres2, hdb2⟩ := hpair
          have hpid : pid = proxy.oid := by
            cases hres2
            rfl
          subst hpid
          -- candidate constraints
          have hpred := List.find?_some hfind
          have hmem := List.mem_of_find?_eq_some hfind
          simp only [candidatePred, heq, jsTruthy, jsKeysLen, Bool.and_eq_true] at hpred
          have hlt : (m.length : Int) < s.max_instances_per_proxy := by
            have := hpred.1.1.2
            simpa using this
          -- decompose the collection at the first document with the candidate's id
          have hsome : (db.find? (fun x => x.oid = proxy.oid)).isSome :=
            List.find?_isSome.mpr ⟨proxy, hmem, by simp⟩
          obtain ⟨d0, hd0⟩ := Option.isSome_iff_exists.mp hsome
          have hd0p : d0.oid = proxy.oid := by simpa using List.find?_some hd0
          obtain ⟨l1, l2, hsplit, hl1⟩ := find?_decomp db _ d0 hd0
          set nm := setKey (pruneLeases s.inactive_proxy_timeout now m) iid now with hnm
          -- the commit write rewrites d0, the last-used refresh rewrites it again
          simp only [commitAssignWrite, refreshLastUsedPlain] at hdb2
          rw [hsplit] at hdb2
          rw [updateOne_appendCons l1 l2 d0 _ _ hl1 (by simp [hd0p])] at hdb2
          simp only [] at hdb2
          rw [updateOne_appendCons l1 l2 _ _ _ hl1 (by simp [hd0p])] at hdb2
          simp only [] at hdb2
          -- identify p
          rw [← hdb2] at hp
          rw [find?_appendCons l1 l2 _ _ hl1 (by simp [hd0p])] at hp
          injection hp with hpe
          subst hpe
          refine ⟨nm, rfl, ?_⟩
          have h1 : nm.length ≤ (pruneLeases s.inactive_proxy_timeout now m).length + 1 := by
            rw [hnm]
            exact setKey_length_le _ _ _
          have h2 : (pruneLeases s.inactive_proxy_timeout now m).length ≤ m.length :=
            List.length_filter_le _ _
          have h4 : (nm.length : Int) ≤ (m.length : Int) + 1 := by
            have h3 : nm.length ≤ m.length + 1 := by omega
            exact_mod_cast h3
          omega
        · exact absurd (congrArg Prod.fst hrun) (by simp)
      · exact absurd (congrArg Prod.fst hrun) (by simp)

/-- Witness for C1: a concrete successful assignment against one empty UP
proxy under the default settings. -/
theorem assign_capacity_bound_witness :
    ∃ m, ({ mkProxy "p1" (InstVal.obj [("i1", 100)]) with last_used := some 100 } : ProxyDoc).instance_ids
        = InstVal.obj m ∧ (m.length : Int) ≤ exampleSettings.max_instances_per_proxy :=
  assign_capacity_bound exampleSettings [mkProxy "p1" (InstVal.obj [])] "i1" none none 100
    (AssignResult.success "Proxy p1 assigned to instance i1" "p1" "1.2.3.4" 8080 none none "HTTP")
    [{ mkProxy "p1" (InstVal.obj [("i1", 100)]) with last_used := some 100 }]
    (by decide)
    "Proxy p1 assigned to instance i1" "p1" "1.2.3.4" 8080 none none "HTTP"
    rfl
    { mkProxy "p1" (InstVal.obj [("i1", 100)]) with last_used := some 100 }
    (by decide)

/-- C2 counterexample: the claim says the commit write succeeds only if the
proxy's stored `instance_ids` still equals the map that was read when
pruning was computed. Here the stored map `[("other", 5)]` differs from a
read map `[]`, yet the write (filtered by `_id` only, lines 301-304) lands
with `modified_count = 1` and overwrites the stored map — and the code has
no retry: on a failed write it returns an error (see the amended
theorem). -/
theorem commit_write_not_conditional_counterexample :
    ([mkProxy "p1" (InstVal.obj [("other", 5)])].find? (fun x => x.oid = "p1"))
      = some (mkProxy "p1" (InstVal.obj [("other", 5)]))
    ∧ (mkProxy "p1" (InstVal.obj [("other", 5)])).instance_ids ≠ InstVal.obj []
    ∧ (commitAssignWrite [mkProxy "p1" (InstVal.obj [("other", 5)])] "p1" [("i2", 100)]).2 = 1
    ∧ (commitAssignWrite [mkProxy "p1" (InstVal.obj [("other", 5)])] "p1" [("i2", 100)]).1
      = [mkProxy "p1" (InstVal.obj [("i2", 100)])] := by
  decide

/-- C2 (amended): the commit write installs the new lease map filtered only
by the proxy's `_id` — it lands whenever the first document with that id
does not already hold exactly the new map, regardless of what was read
earlier (last writer wins); `modified_count` reports whether the document
changed; and when the write does not land, `assign_proxy_to_instance`
returns a failure response without retrying candidate selection (concrete
run in the last conjunct: the written map equals the stored one, so the
write reports 0 modifications and the engine returns the failure error). -/
theorem commit_write_unconditional_by_id
    (db : List ProxyDoc) (pid : String) (newMap : List (String × Int)) (d : ProxyDoc)
    (hd : db.find? (fun x => x.oid = pid) = some d) :
    ((commitAssignWrite db pid newMap).2
        = if d.instance_ids = InstVal.obj newMap then 0 else 1)
    ∧ (commitAssignWrite db pid newMap).1.find? (fun x => x.oid = pid)
        = some { d with instance_ids := InstVal.obj newMap }
    ∧ (runAssign exampleSettings [mkProxy "p1" (InstVal.obj [("i", 100)])] "i" none none 100).1
        = AssignResult.error "Failed to assign proxy p1 to instance i" := by
  have hdp : d.oid = pid := by simpa using List.find?_some hd
  obtain ⟨l1, l2, hsplit, hl1⟩ := find?_decomp db _ d hd
  have hu := updateOne_appendCons l1 l2 d (fun x => x.oid = pid)
      (fun x => { x with instance_ids := InstVal.obj newMap }) hl1 (by simp [hdp])
  refine ⟨?_, ?_, by decide⟩
  · rw [commitAssignWrite, hsplit, hu]
    simp only []
    by_cases h : InstVal.obj newMap = d.instance_ids
    · rw [if_pos ((setInstanceIds_eq_self d _).mpr h), if_pos h.symm]
    · rw [if_neg (fun hc => h ((setInstanceIds_eq_self d _).mp hc)),
        if_neg (fun hc => h hc.symm)]
  · rw [commitAssignWrite, hsplit, hu]
    simp only []
    exact find?_appendCons l1 l2 _ _ hl1 (by simp [hdp])

/-- Witness for the amended C2 at a concrete store. -/
theorem commit_write_unconditional_by_id_witness :
    ((commitAssignWrite [mkProxy "p2" (InstVal.obj [("other", 5)])] "p2" [("i2", 100)]).2
        = if (mkProxy "p2" (InstVal.obj [("other", 5)])).instance_ids
            = InstVal.obj [("i2", 100)] then 0 else 1)
    ∧ (commitAssignWrite [mkProxy "p2" (InstVal.obj [("other", 5)])] "p2" [("i2", 100)]).1.find?
        (fun x => x.oid = "p2")
        = some { mkProxy "p2" (InstVal.obj [("other", 5)]) with instance_ids := InstVal.obj [("i2", 100)] }
    ∧ (runAssign exampleSettings [mkProxy "p1" (InstVal.obj [("i", 100)])] "i" none none 100).1
        = AssignResult.error "Failed to assign proxy p1 to instance i" :=
  commit_write_unconditional_by_id [mkProxy "p2" (InstVal.obj [("other", 5)])] "p2"
    [("i2", 100)] (mkProxy "p2" (InstVal.obj [("other", 5)])) (by decide)

/-- C3 (the code contradicts the claim): the saturation pre-check queries
`find({"instance_ids": instance_id})` (line 259), a string-equality match
that can never match an object-shaped `instance_ids` map, so it counts 0
and never fires. Concretely: with `max_proxies_per_instance = 1`, proxy
`p1` already holds a lease for instance `i` (so the count at the start of
assign is 1 ≥ 1 and the claim demands the `InstanceSaturated` error), yet
`assign` succeeds, assigns `p2` to `i` as well, and afterwards two proxies
bear a lease for `i`, violating the per-instance cap. -/
theorem saturation_check_misses_lease_maps :
    countBearingLease
        [mkProxy "p1" (InstVal.obj [("i", 95), ("j", 96)]), mkProxy "p2" (InstVal.obj [])] "i" = 1
    ∧ exampleSettings.max_proxies_per_instance ≤ (1 : Int)
    ∧ (runAssign exampleSettings
        [mkProxy "p1" (InstVal.obj [("i", 95), ("j", 96)]), mkProxy "p2" (InstVal.obj [])]
        "i" none none 100).1
      = AssignResult.success "Proxy p2 assigned to instance i" "p2" "1.2.3.4" 8080 none none "HTTP"
    ∧ countBearingLease
        (runAssign exampleSettings
          [mkProxy "p1" (InstVal.obj [("i", 95), ("j", 96)]), mkProxy "p2" (InstVal.obj [])]
          "i" none none 100).2 "i" = 2
    ∧ exampleSettings.max_proxies_per_instance < (2 : Int) := by
  decide

/-- C4: with a single UP proxy whose only lease has a timestamp not
strictly newer than `now − inactive_proxy_timeout`, assignment for another
instance succeeds and the resulting map is exactly the fresh lease: the
stale entry is pruned before the new one is inserted (lines 292-299); and
in general the pre-prune drops every entry whose timestamp is not strictly
newer than `now − inactive_proxy_timeout`. -/
theorem stale_lease_prepruned
    (p : ProxyDoc) (i1 i2 : String) (t now : Int) (s : CachedSettings)
    (hup : p.status = "UP") (hids : p.instance_ids = InstVal.obj [(i1, t)])
    (hstale : t ≤ now - s.inactive_proxy_timeout)
    (hmax : (1 : Int) < s.max_instances_per_proxy)
    (hcap : (0 : Int) < s.max_proxies_per_instance)
    (hne : i1 ≠ i2) :
    runAssign s [p] i2 none none now
      = (AssignResult.success ("Proxy " ++ p.oid ++ " assigned to instance " ++ i2)
          p.oid p.ip p.port p.username p.password p.protocol,
         [{ p with instance_ids := InstVal.obj [(i2, now)], last_used := some now }])
    ∧ ∀ (m : List (String × Int)) (e : String × Int), e ∈ m →
        e.2 ≤ now - s.inactive_proxy_timeout →
        e ∉ pruneLeases s.inactive_proxy_timeout now m := by
  constructor
  · have hflt : List.filter (fun q => instValEqStr q.instance_ids i2) [p] = [] := by
      simp [instValEqStr, hids]
    have hpred : candidatePred s none none p = true := by
      simp [candidatePred, hids, hup, jsTruthy, jsKeysLen]
      omega
    have hprune : pruneLeases s.inactive_proxy_timeout now [(i1, t)] = [] := by
      simp only [pruneLeases, List.filter_eq_nil_iff]
      intro e he
      simp only [List.mem_singleton] at he
      subst he
      simp only [decide_eq_true_eq]
      omega
    have hne2 : InstVal.obj [(i2, now)] ≠ p.instance_ids := by
      rw [hids]
      intro hc
      simp only [InstVal.obj.injEq, List.cons.injEq, Prod.mk.injEq] at hc
      exact hne hc.1.1.symm
    have hc1 : commitAssignWrite [p] p.oid [(i2, now)]
        = ([{ p with instance_ids := InstVal.obj [(i2, now)] }], 1) := by
      unfold commitAssignWrite updateOne
      rw [if_pos (by simp)]
      rw [if_neg (fun hc => hne2 ((setInstanceIds_eq_self p _).mp hc))]
    have hc2 : refreshLastUsedPlain [{ p with instance_ids := InstVal.obj [(i2, now)] }] p.oid now
        = ([{ p with instance_ids := InstVal.obj [(i2, now)], last_used := some now }],
           if ({ p with instance_ids := InstVal.obj [(i2, now)], last_used := some now } : ProxyDoc)
              = { p with instance_ids := InstVal.obj [(i2, now)] } then 0 else 1) := by
      unfold refreshLastUsedPlain updateOne
      rw [if_pos (by simp)]
    unfold runAssign
    rw [hflt]
    rw [if_neg (by simp only [List.length_nil, Nat.cast_zero]; omega)]
    rw [List.find?_cons_of_pos _ hpred]
    unfold assignWithCandidate
    simp only [hids]
    rw [hprune]
    simp only [setKey]
    rw [hc1]
    simp only []
    rw [if_pos trivial, hc2]
  · intro m e hm hle hmemp
    have := List.of_mem_filter hmemp
    simp only [decide_eq_true_eq] at this
    omega

/-- Witness for C4: the S2 scenario with an 11-minute-old lease and a
10-minute timeout (timestamps in minutes, `now = 100`, lease at 89). -/
theorem stale_lease_prepruned_witness :
    runAssign exampleSettings [mkProxy "p1" (InstVal.obj [("i1", 89)])] "i2" none none 100
      = (AssignResult.success "Proxy p1 assigned to instance i2" "p1" "1.2.3.4" 8080
          none none "HTTP",
         [{ mkProxy "p1" (InstVal.obj [("i1", 89)]) with
            instance_ids := InstVal.obj [("i2", 100)], last_used := some 100 }])
    ∧ ∀ (m : List (String × Int)) (e : String × Int), e ∈ m →
        e.2 ≤ 100 - exampleSettings.inactive_proxy_timeout →
        e ∉ pruneLeases exampleSettings.inactive_proxy_timeout 100 m :=
  stale_lease_prepruned (mkProxy "p1" (InstVal.obj [("i1", 89)])) "i1" "i2" 89 100
    exampleSettings rfl rfl (by decide) (by decide) (by decide) (by decide)

theorem applyExpiryUnset_oid (ks : List String) (flag : Bool) (d : ProxyDoc) :
    (applyExpiryUnset ks flag d).oid = d.oid := by
  cases hd : d.instance_ids <;> cases flag <;> simp [applyExpiryUnset, hd]

theorem applyExpiryUnset_obj_true (ks : List String) (d : ProxyDoc)
    (m : List (String × Int)) (hd : d.instance_ids = InstVal.obj m) :
    applyExpiryUnset ks true d
      = { d with
          instance_ids := InstVal.obj (m.filter (fun e => e.1 ∉ ks)), last_used := none } := by
  simp [applyExpiryUnset, hd]

theorem applyExpiryUnset_obj_false (ks : List String) (d : ProxyDoc)
    (m : List (String × Int)) (hd : d.instance_ids = InstVal.obj m) :
    applyExpiryUnset ks false d
      = { d with instance_ids := InstVal.obj (m.filter (fun e => e.1 ∉ ks)) } := by
  simp [applyExpiryUnset, hd]

theorem applyExpiryUnset_instance_ids (ks : List String) (flag : Bool) (d : ProxyDoc)
    (m : List (String × Int)) (hd : d.instance_ids = InstVal.obj m) :
    (applyExpiryUnset ks flag d).instance_ids
      = InstVal.obj (m.filter (fun e => e.1 ∉ ks)) := by
  cases flag
  · rw [applyExpiryUnset_obj_false ks d m hd]
  · rw [applyExpiryUnset_obj_true ks d m hd]

theorem sweepDoc_oid (thr : Int) (p : ProxyDoc) : (sweepDoc thr p).oid = p.oid := by
  unfold sweepDoc
  split
  · split
    · rfl
    · exact applyExpiryUnset_oid _ _ _
  · rfl

theorem sweepDoc_not_obj (thr : Int) (q : ProxyDoc)
    (h : ∀ mq, q.instance_ids ≠ InstVal.obj mq) : sweepDoc thr q = q := by
  unfold sweepDoc
  cases hiv : q.instance_ids with
  | obj mq => exact absurd hiv (h mq)
  | str sv => rfl
  | null => rfl

theorem sweepUpdateFor_self (thr : Int) (p : ProxyDoc) (acc1 rest : List ProxyDoc)
    (h1 : ∀ x ∈ acc1, x.oid ≠ p.oid) :
    sweepUpdateFor thr p (acc1 ++ p :: rest) = acc1 ++ sweepDoc thr p :: rest := by
  unfold sweepUpdateFor sweepDoc
  cases hiv : p.instance_ids with
  | obj m =>
    dsimp only
    by_cases he : (List.filter (fun e => decide (e.2 < thr)) m).isEmpty
    · rw [if_pos he, if_pos he]
    · rw [if_neg he, if_neg he]
      rw [updateOne_appendCons acc1 rest p _ _
        (fun x hx => by simp [h1 x hx]) (by simp)]
  | str sv => rfl
  | null => rfl

theorem sweep_fold_eq (thr : Int) (snap : List ProxyDoc) :
    ∀ (acc1 : List ProxyDoc),
      (∀ q ∈ snap, ∀ a ∈ acc1, a.oid ≠ q.oid) →
      (snap.map (fun x => x.oid)).Nodup →
      List.foldl (fun acc p => sweepUpdateFor thr p acc) (acc1 ++ snap) snap
        = acc1 ++ snap.map (sweepDoc thr) := by
  induction snap with
  | nil => intro acc1 _ _; simp
  | cons p rest ih =>
    intro acc1 hdisj hnodup
    rw [List.foldl_cons]
    rw [sweepUpdateFor_self thr p acc1 rest (fun a ha => hdisj p (by simp) a ha)]
    have hsplit2 : acc1 ++ sweepDoc thr p :: rest = (acc1 ++ [sweepDoc thr p]) ++ rest := by
      simp
    rw [hsplit2]
    rw [ih (acc1 ++ [sweepDoc thr p]) ?hdisj ?hnodup]
    · simp
    case hdisj =>
      intro q hq a ha
      rcases List.mem_append.mp ha with h | h
      · exact hdisj q (by simp [hq]) a h
      · simp only [List.mem_singleton] at h
        subst h
        rw [sweepDoc_oid]
        have hnin : p.oid ∉ rest.map (fun x => x.oid) :=
          (List.nodup_cons.mp (by simpa using hnodup)).1
        intro hc
        exact hnin (hc ▸ List.mem_map_of_mem _ hq)
    case hnodup =>
      exact (List.nodup_cons.mp (by simpa using hnodup)).2

theorem clearInactiveOnce_eq_map (tm now : Int) (db : List ProxyDoc)
    (h : (db.map (fun x => x.oid)).Nodup) :
    clearInactiveOnce tm now db = db.map (sweepDoc (now - tm)) := by
  have := sweep_fold_eq (now - tm) db [] (by simp) h
  simpa [clearInactiveOnce] using this

theorem sweepDoc_entries (thr : Int) (q : ProxyDoc) (m : List (String × Int))
    (hm : (sweepDoc thr q).instance_ids = InstVal.obj m) :
    ∀ e ∈ m, thr ≤ e.2 := by
  cases hiv : q.instance_ids with
  | obj mq =>
    unfold sweepDoc at hm
    rw [hiv] at hm
    dsimp only at hm
    by_cases he : (List.filter (fun e => decide (e.2 < thr)) mq).isEmpty
    · rw [if_pos he] at hm
      rw [hiv] at hm
      injection hm with hm2
      intro e hem
      have hf := List.filter_eq_nil_iff.mp (List.isEmpty_iff.mp he)
      have := hf e (hm2 ▸ hem)
      simp only [decide_eq_true_eq] at this
      omega
    · rw [if_neg he] at hm
      rw [applyExpiryUnset_instance_ids _ _ q mq hiv] at hm
      injection hm with hm2
      intro e hem
      rw [← hm2] at hem
      have hmem := List.mem_filter.mp hem
      by_contra hlt
      have hein : e ∈ List.filter (fun x => decide (x.2 < thr)) mq :=
        List.mem_filter.mpr ⟨hmem.1, by
          simp only [decide_eq_true_eq]
          omega⟩
      have hkey : e.1 ∈ (List.filter (fun x => decide (x.2 < thr)) mq).map (fun x => x.1) :=
        List.mem_map_of_mem _ hein
      have hnk := hmem.2
      simp only [decide_eq_true_eq] at hnk
      exact hnk hkey
  | str sv =>
    rw [sweepDoc_not_obj thr q (by rw [hiv]; intro mq h; exact absurd h (by simp))] at hm
    rw [hiv] at hm
    exact absurd hm (by simp)
  | null =>
    rw [sweepDoc_not_obj thr q (by rw [hiv]; intro mq h; exact absurd h (by simp))] at hm
    rw [hiv] at hm
    exact absurd hm (by simp)

theorem sweepDoc_all_expired (thr : Int) (q : ProxyDoc) (m : List (String × Int))
    (hm : q.instance_ids = InstVal.obj m) (hne : m ≠ [])
    (hall : ∀ e ∈ m, e.2 < thr) :
    sweepDoc thr q = { q with instance_ids := InstVal.obj [], last_used := none } := by
  have hexp : List.filter (fun e => decide (e.2 < thr)) m = m :=
    List.filter_eq_self.mpr (fun e he => by
      simp only [decide_eq_true_eq]
      exact hall e he)
  unfold sweepDoc
  rw [hm]
  dsimp only
  rw [hexp]
  rw [if_neg (by simpa [List.isEmpty_iff] using hne)]
  rw [show (decide (m.length = m.length)) = true by simp]
  rw [applyExpiryUnset_obj_true _ q m hm]
  have hnil : m.filter (fun e => decide (e.1 ∉ (m.map (fun x => x.1)))) = [] := by
    rw [List.filter_eq_nil_iff]
    intro e he
    simp only [decide_eq_true_eq, Decidable.not_not]
    exact List.mem_map_of_mem _ he
  rw [hnil]

/-- C5: after one full iteration of the expiry sweep at time `now`, every
remaining lease of every proxy whose `instance_ids` is an object satisfies
`t ≥ now − threshold_time_minutes`; and a proxy with a non-empty lease map
all of whose leases were expired ends with an empty `instance_ids` and
`last_used` unset. (`_id` values are distinct, as MongoDB guarantees
through the `_id` index.) -/
theorem expiry_sweep_bound (tm now : Int) (db : List ProxyDoc)
    (hid : (db.map (fun x => x.oid)).Nodup) :
    (∀ p ∈ clearInactiveOnce tm now db, ∀ m, p.instance_ids = InstVal.obj m →
        ∀ e ∈ m, now - tm ≤ e.2)
    ∧ (∀ q ∈ db, ∀ m, q.instance_ids = InstVal.obj m → m ≠ [] →
        (∀ e ∈ m, e.2 < now - tm) →
        ({ q with instance_ids := InstVal.obj [], last_used := none } : ProxyDoc)
          ∈ clearInactiveOnce tm now db) := by
  rw [clearInactiveOnce_eq_map tm now db hid]
  constructor
  · intro p hp m hm e he
    obtain ⟨q, hq, rfl⟩ := List.mem_map.mp hp
    exact sweepDoc_entries (now - tm) q m hm e he
  · intro q hq m hm hne hall
    rw [← sweepDoc_all_expired (now - tm) q m hm hne hall]
    exact List.mem_map_of_mem _ hq

/-- Witness for C5: the S5 scenario — one proxy with a single 20-minute-old
lease (minutes, `now = 100`, lease at 80, threshold 10) ends empty with
`last_used` unset. -/
theorem expiry_sweep_bound_witness :
    (mkProxy "p1" (InstVal.obj []) : ProxyDoc)
      ∈ clearInactiveOnce 10 100
        [{ mkProxy "p1" (InstVal.obj [("i1", 80)]) with last_used := some 80 }] :=
  (expiry_sweep_bound 10 100
      [{ mkProxy "p1" (InstVal.obj [("i1", 80)]) with last_used := some 80 }]
      (by decide)).2
    { mkProxy "p1" (InstVal.obj [("i1", 80)]) with last_used := some 80 }
    (by decide) [("i1", 80)] rfl (by decide) (by decide)

/-- C6 counterexample: the claim says `(ip, port, protocol)` duplicates are
detected case-insensitively with protocol canonicalized to upper case on
input. No canonicalization exists in the code (`ProxyModel` keeps the
string as given, and `add_proxy`'s `find_one` does exact string equality):
adding `http` then `HTTP` at the same ip and port succeeds twice, leaving
two proxies that share the triple up to protocol case. -/
theorem add_proxy_case_counterexample :
    (addProxy [] ({ mkProxy "a" (InstVal.obj []) with protocol := "http" })).1
      = AddResult.success "a"
    ∧ (addProxy (addProxy [] ({ mkProxy "a" (InstVal.obj []) with protocol := "http" })).2
        ({ mkProxy "b" (InstVal.obj []) with protocol := "HTTP" })).1
      = AddResult.success "b"
    ∧ ({ mkProxy "a" (InstVal.obj []) with protocol := "http" } : ProxyDoc).ip
      = ({ mkProxy "b" (InstVal.obj []) with protocol := "HTTP" } : ProxyDoc).ip
    ∧ ({ mkProxy "a" (InstVal.obj []) with protocol := "http" } : ProxyDoc).port
      = ({ mkProxy "b" (InstVal.obj []) with protocol := "HTTP" } : ProxyDoc).port
    ∧ ({ mkProxy "a" (InstVal.obj []) with protocol := "http" } : ProxyDoc).protocol.data.map
        Char.toUpper
      = ({ mkProxy "b" (InstVal.obj []) with protocol := "HTTP" } : ProxyDoc).protocol.data.map
        Char.toUpper
    ∧ (addProxy (addProxy [] ({ mkProxy "a" (InstVal.obj []) with protocol := "http" })).2
        ({ mkProxy "b" (InstVal.obj []) with protocol := "HTTP" })).2.length = 2 := by
  decide

/-- C6 (amended): `add_proxy` fails with `Duplicate` and inserts nothing
exactly when some existing proxy has the identical `(ip, port, protocol)`
string triple, compared case-sensitively (no canonicalization on input);
in particular adding the same descriptor twice makes the second call fail,
so no two proxies ever share the exact triple. -/
theorem add_proxy_duplicate_exact (db : List ProxyDoc) (p : ProxyDoc) :
    ((∃ q ∈ db, q.ip = p.ip ∧ q.port = p.port ∧ q.protocol = p.protocol) →
        addProxy db p
          = (AddResult.httpError 400
              "A proxy with the same IP, port, and protocol already exists.", db))
    ∧ ((∀ q ∈ db, ¬(q.ip = p.ip ∧ q.port = p.port ∧ q.protocol = p.protocol)) →
        addProxy db p = (AddResult.success p.oid, db ++ [p]))
    ∧ (∀ db2, addProxy db p = (AddResult.success p.oid, db2) →
        (addProxy db2 p).1
          = AddResult.httpError 400
              "A proxy with the same IP, port, and protocol already exists.") := by
  refine ⟨?_, ?_, ?_⟩
  · rintro ⟨q, hq, h1, h2, h3⟩
    unfold addProxy
    have hs : (db.find? (fun q => q.ip = p.ip && q.port = p.port && q.protocol = p.protocol)).isSome :=
      List.find?_isSome.mpr ⟨q, hq, by simp [h1, h2, h3]⟩
    obtain ⟨r, hr⟩ := Option.isSome_iff_exists.mp hs
    rw [hr]
  · intro h
    unfold addProxy
    have hn : db.find? (fun q => q.ip = p.ip && q.port = p.port && q.protocol = p.protocol) = none :=
      List.find?_eq_none.mpr (fun q hq => by simpa using h q hq)
    rw [hn]
  · intro db2 hadd
    unfold addProxy at hadd
    cases hf : db.find? (fun q => q.ip = p.ip && q.port = p.port && q.protocol = p.protocol) with
    | some r =>
      rw [hf] at hadd
      exact absurd (congrArg Prod.fst hadd) (by simp)
    | none =>
      rw [hf] at hadd
      have hdb2 : db2 = db ++ [p] := (congrArg Prod.snd hadd).symm
      subst hdb2
      unfold addProxy
      have hs : ((db ++ [p]).find? (fun q => q.ip = p.ip && q.port = p.port && q.protocol = p.protocol)).isSome :=
        List.find?_isSome.mpr ⟨p, by simp, by simp⟩
      obtain ⟨r, hr⟩ := Option.isSome_iff_exists.mp hs
      rw [hr]

/-- Witness for the amended C6: an exact duplicate is rejected and the
store is unchanged. -/
theorem add_proxy_duplicate_exact_witness :
    addProxy [mkProxy "a" (InstVal.obj [])] (mkProxy "b" (InstVal.obj []))
      = (AddResult.httpError 400
          "A proxy with the same IP, port, and protocol already exists.",
         [mkProxy "a" (InstVal.obj [])]) :=
  (add_proxy_duplicate_exact [mkProxy "a" (InstVal.obj [])]
      (mkProxy "b" (InstVal.obj []))).1
    ⟨mkProxy "a" (InstVal.obj []), by decide, by decide⟩

theorem cachedOfDoc_eq_some_iff (s : SettingsDoc) (c : CachedSettings) :
    cachedOfDoc s = some c ↔
      s.inactive_proxy_timeout = some c.inactive_proxy_timeout ∧
      s.threshold_time_minutes = some c.threshold_time_minutes ∧
      s.background_check_proxies_interval = some c.background_check_proxies_interval ∧
      s.max_instances_per_proxy = some c.max_instances_per_proxy ∧
      s.max_proxies_per_instance = some c.max_proxies_per_instance := by
  obtain ⟨f1, f2, f3, f4, f5⟩ := s
  obtain ⟨c1, c2, c3, c4, c5⟩ := c
  cases f1 <;> cases f2 <;> cases f3 <;> cases f4 <;> cases f5 <;>
    simp [cachedOfDoc, CachedSettings.mk.injEq, and_assoc]

theorem orElse_getD (x : Option Int) (a : Int) :
    (x.orElse (fun _ => some a)) = some (x.getD a) := by
  cases x <;> simp

theorem updateSettings_found (prev : SettingsDoc) (patch : SettingsPatch)
    (c2 : CachedSettings) (hne : patchIsEmpty patch = false)
    (hc2 : cachedOfDoc (mergeSettings prev patch) = some c2) :
    updateSettings (some prev) patch
      = (some (mergeSettings prev patch), SettingsOutcome.success c2) := by
  simp [updateSettings, hne, loadSettings, hc2]

/-- C7: `update_settings` with an effectively empty patch fails with the
NoFields error (HTTP 400 "No updates provided") and changes nothing; with a
non-empty patch against an existing well-formed settings document it
persists `prev ⊕ patch` and re-loads, so the cached snapshot read
afterwards equals `prev ⊕ patch` field by field. -/
theorem update_settings_roundtrip
    (store : Option SettingsDoc) (prev : SettingsDoc) (patch : SettingsPatch)
    (c : CachedSettings) (hc : cachedOfDoc prev = some c) :
    (patchIsEmpty patch = true →
        updateSettings store patch
          = (store, SettingsOutcome.httpError 400 "No updates provided"))
    ∧ (patchIsEmpty patch = false →
        ∃ c2, updateSettings (some prev) patch
            = (some (mergeSettings prev patch), SettingsOutcome.success c2)
          ∧ cachedOfDoc (mergeSettings prev patch) = some c2
          ∧ c2.inactive_proxy_timeout
              = patch.inactive_proxy_timeout.getD c.inactive_proxy_timeout
          ∧ c2.threshold_time_minutes
              = patch.threshold_time_minutes.getD c.threshold_time_minutes
          ∧ c2.background_check_proxies_interval
              = patch.background_check_proxies_interval.getD c.background_check_proxies_interval
          ∧ c2.max_instances_per_proxy
              = patch.max_instances_per_proxy.getD c.max_instances_per_proxy
          ∧ c2.max_proxies_per_instance
              = patch.max_proxies_per_instance.getD c.max_proxies_per_instance) := by
  constructor
  · intro he
    simp [updateSettings, he]
  · intro hne
    obtain ⟨hp1, hp2, hp3, hp4, hp5⟩ := (cachedOfDoc_eq_some_iff prev c).mp hc
    have hm1 : (mergeSettings prev patch).inactive_proxy_timeout
        = some (patch.inactive_proxy_timeout.getD c.inactive_proxy_timeout) := by
      simp [mergeSettings, hp1, orElse_getD]
    have hm2 : (mergeSettings prev patch).threshold_time_minutes
        = some (patch.threshold_time_minutes.getD c.threshold_time_minutes) := by
      simp [mergeSettings, hp2, orElse_getD]
    have hm3 : (mergeSettings prev patch).background_check_proxies_interval
        = some (patch.background_check_proxies_interval.getD c.background_check_proxies_interval) := by
      simp [mergeSettings, hp3, orElse_getD]
    have hm4 : (mergeSettings prev patch).max_instances_per_proxy
        = some (patch.max_instances_per_proxy.getD c.max_instances_per_proxy) := by
      simp [mergeSettings, hp4, orElse_getD]
    have hm5 : (mergeSettings prev patch).max_proxies_per_instance
        = some (patch.max_proxies_per_instance.getD c.max_proxies_per_instance) := by
      simp [mergeSettings, hp5, orElse_getD]
    have hc2 : cachedOfDoc (mergeSettings prev patch)
        = some ⟨patch.inactive_proxy_timeout.getD c.inactive_proxy_timeout,
                patch.threshold_time_minutes.getD c.threshold_time_minutes,
                patch.background_check_proxies_interval.getD c.background_check_proxies_interval,
                patch.max_instances_per_proxy.getD c.max_instances_per_proxy,
                patch.max_proxies_per_instance.getD c.max_proxies_per_instance⟩ :=
      (cachedOfDoc_eq_some_iff _ _).mpr ⟨hm1, hm2, hm3, hm4, hm5⟩
    exact ⟨_, updateSettings_found prev patch _ hne hc2, hc2, rfl, rfl, rfl, rfl, rfl⟩

/-- Witness for C7: patching `inactive_proxy_timeout := 7` over the default
settings document. -/
theorem update_settings_roundtrip_witness :
    ∃ c2, updateSettings (some defaultSettingsDoc)
          { inactive_proxy_timeout := some 7, threshold_time_minutes := none,
            background_check_proxies_interval := none, max_instances_per_proxy := none,
            max_proxies_per_instance := none }
        = (some (mergeSettings defaultSettingsDoc
            { inactive_proxy_timeout := some 7, threshold_time_minutes := none,
              background_check_proxies_interval := none, max_instances_per_proxy := none,
              max_proxies_per_instance := none }), SettingsOutcome.success c2)
      ∧ cachedOfDoc (mergeSettings defaultSettingsDoc
            { inactive_proxy_timeout := some 7, threshold_time_minutes := none,
              background_check_proxies_interval := none, max_instances_per_proxy := none,
              max_proxies_per_instance := none }) = some c2
      ∧ c2.inactive_proxy_timeout = (some (7 : Int)).getD exampleSettings.inactive_proxy_timeout
      ∧ c2.threshold_time_minutes = (none : Option Int).getD exampleSettings.threshold_time_minutes
      ∧ c2.background_check_proxies_interval
          = (none : Option Int).getD exampleSettings.background_check_proxies_interval
      ∧ c2.max_instances_per_proxy = (none : Option Int).getD exampleSettings.max_instances_per_proxy
      ∧ c2.max_proxies_per_instance = (none : Option Int).getD exampleSettings.max_proxies_per_instance :=
  (update_settings_roundtrip (some defaultSettingsDoc) defaultSettingsDoc
      { inactive_proxy_timeout := some 7, threshold_time_minutes := none,
        background_check_proxies_interval := none, max_instances_per_proxy := none,
        max_proxies_per_instance := none }
      exampleSettings rfl).2 rfl

/-- C10: with no settings document in the store, `update_settings` with a
non-empty patch first lands the upsert (the patch document persists in the
store) and then raises HTTP 404 "Settings not found" because
`matched_count` is 0 — the error response does not mean the stored state
is unchanged. -/
theorem update_settings_upsert_then_404 (patch : SettingsPatch)
    (hne : patchIsEmpty patch = false) :
    updateSettings none patch
      = (some patch, SettingsOutcome.httpError 404 "Settings not found") := by
  simp [updateSettings, hne]

/-- Witness for C10 at a concrete patch. -/
theorem update_settings_upsert_then_404_witness :
    updateSettings none
        { inactive_proxy_timeout := some 7, threshold_time_minutes := none,
          background_check_proxies_interval := none, max_instances_per_proxy := none,
          max_proxies_per_instance := none }
      = (some { inactive_proxy_timeout := some 7, threshold_time_minutes := none,
                background_check_proxies_interval := none, max_instances_per_proxy := none,
                max_proxies_per_instance := none },
         SettingsOutcome.httpError 404 "Settings not found") :=
  update_settings_upsert_then_404
    { inactive_proxy_timeout := some 7, threshold_time_minutes := none,
      background_check_proxies_interval := none, max_instances_per_proxy := none,
      max_proxies_per_instance := none } rfl

/-- C8 counterexample: the claim says `clear_lease_on` reports success iff
the lease entry was present and removed, and otherwise reports failure
leaving the document unchanged. Here the proxy holds no lease at all for
`i1`, yet the call reports success — the `$unset` modifies nothing, so the
fallback write (lines 251-255) sets the legacy scalar `instance_id` field
to null, modifying the document, and `True` is returned. -/
theorem clear_lease_fallback_counterexample :
    (clearInstanceId [mkProxy "p1" (InstVal.obj [])] "p1" "i1").2 = true
    ∧ (clearInstanceId [mkProxy "p1" (InstVal.obj [])] "p1" "i1").1
      = [{ mkProxy "p1" (InstVal.obj []) with instance_id := InstScalar.nullv }]
    ∧ (mkProxy "p1" (InstVal.obj [])).instance_ids = InstVal.obj [] := by
  decide

/-- C8 (amended): when the proxy's `instance_ids` is an object containing a
lease for the instance, `clear_instance_id` removes exactly that entry and
reports success. Otherwise it falls back to setting the legacy scalar
`instance_id` field to null and reports success exactly when that fallback
write modified the document, i.e. unless `instance_id` was already null —
so a missing lease is reported as success whenever the scalar field was
not already null, and the document is mutated. -/
theorem updateOne_singleton (d : ProxyDoc) (pred : ProxyDoc → Bool)
    (f : ProxyDoc → ProxyDoc) (hp : pred d = true) :
    updateOne [d] pred f = ([f d], if f d = d then 0 else 1) := by
  simp [updateOne, hp]

theorem updateOne_singleton_nomatch (d : ProxyDoc) (pred : ProxyDoc → Bool)
    (f : ProxyDoc → ProxyDoc) (hp : pred d = false) :
    updateOne [d] pred f = ([d], 0) := by
  simp [updateOne, hp]

theorem clear_lease_reports (d : ProxyDoc) (iid : String) :
    (∀ m, d.instance_ids = InstVal.obj m → m.any (fun e => e.1 = iid) = true →
      clearInstanceId [d] d.oid iid
        = ([{ d with instance_ids := InstVal.obj (m.filter (fun e => e.1 ≠ iid)) }], true))
    ∧ ((∀ m, d.instance_ids = InstVal.obj m → m.any (fun e => e.1 = iid) = false) →
      clearInstanceId [d] d.oid iid
        = ([{ d with instance_id := InstScalar.nullv }],
           decide (d.instance_id ≠ InstScalar.nullv))) := by
  constructor
  · intro m hm hany
    have hne : ({ d with instance_ids := InstVal.obj (m.filter (fun e => e.1 ≠ iid)) } : ProxyDoc) ≠ d := by
      intro hc
      have h2 := (setInstanceIds_eq_self d _).mp hc
      rw [hm] at h2
      injection h2 with h3
      have hall := List.filter_eq_self.mp h3
      obtain ⟨e, he, hei⟩ := List.any_eq_true.mp hany
      have h4 := hall e he
      simp only [decide_eq_true_eq] at h4 hei
      exact h4 hei
    simp only [clearInstanceId]
    rw [updateOne_singleton d _ _ (by simp [hm])]
    dsimp only
    rw [hm]
    dsimp only
    rw [if_neg hne]
    rfl
  · intro hno
    by_cases hobj : ∃ m, d.instance_ids = InstVal.obj m
    · obtain ⟨m, hm⟩ := hobj
      have hany := hno m hm
      have hfix : m.filter (fun e => e.1 ≠ iid) = m := by
        apply List.filter_eq_self.mpr
        intro e he
        simp only [decide_eq_true_eq]
        intro hc
        have hx : m.any (fun e => e.1 = iid) = true :=
          List.any_eq_true.mpr ⟨e, he, by simp [hc]⟩
        simp [hx] at hany
      have hfd : ({ d with instance_ids := InstVal.obj (m.filter (fun e => e.1 ≠ iid)) } : ProxyDoc) = d := by
        rw [hfix]
        exact (setInstanceIds_eq_self d _).mpr hm.symm
      simp only [clearInstanceId]
      rw [updateOne_singleton d _ _ (by simp [hm])]
      dsimp only
      rw [hm]
      dsimp only
      rw [if_pos hfd]
      rw [hfd]
      rw [updateOne_singleton d _ _ (by simp)]
      dsimp only
      by_cases hin : d.instance_id = InstScalar.nullv
      · rw [if_pos ((setScalarId_eq_self d _).mpr hin.symm)]
        simp [hin, hm]
      · have hf2 : ({ d with instance_id := InstScalar.nullv } : ProxyDoc) ≠ d :=
          fun hc => hin ((setScalarId_eq_self d _).mp hc).symm
        rw [if_neg hf2]
        simp [hin, hm]
    · have hnobj : (match d.instance_ids with
          | InstVal.obj _ => true
          | _ => false) = false := by
        cases hdv : d.instance_ids with
        | obj mq => exact absurd ⟨mq, hdv⟩ hobj
        | str sv => rfl
        | null => rfl
      simp only [clearInstanceId]
      rw [updateOne_singleton_nomatch d _ _ (by simp [hnobj])]
      dsimp only
      rw [updateOne_singleton d _ _ (by simp)]
      dsimp only
      by_cases hin : d.instance_id = InstScalar.nullv
      · rw [if_pos ((setScalarId_eq_self d _).mpr hin.symm)]
        simp [hin]
      · have hf2 : ({ d with instance_id := InstScalar.nullv } : ProxyDoc) ≠ d :=
          fun hc => hin ((setScalarId_eq_self d _).mp hc).symm
        rw [if_neg hf2]
        simp [hin]

/-- Witness for the amended C8: removing a held lease reports success and
leaves the map without that entry. -/
theorem clear_lease_reports_witness :
    clearInstanceId [mkProxy "p1" (InstVal.obj [("i1", 50)])] "p1" "i1"
      = ([{ mkProxy "p1" (InstVal.obj [("i1", 50)]) with instance_ids := InstVal.obj [] }],
         true) :=
  (clear_lease_reports (mkProxy "p1" (InstVal.obj [("i1", 50)])) "i1").1
    [("i1", 50)] rfl (by decide)

/-- C9: `update_last_used(proxy_id, instance_id)` — the body of the
`refresh_proxy_usage` endpoint — sets `instance_ids[instance_id]` to the
server's current time on the first document with that id, creating the
entry when absent, with no capacity check; repeated calls with distinct
instance ids grow the map beyond `max_instances_per_proxy` (concrete run:
three refreshes on an empty map reach 3 entries > default limit 2). -/
theorem refresh_creates_lease_unbounded
    (db : List ProxyDoc) (pid iid : String) (now : Int) (d : ProxyDoc)
    (m : List (String × Int))
    (hd : db.find? (fun x => x.oid = pid) = some d)
    (hm : d.instance_ids = InstVal.obj m) :
    (∃ db2 r, updateLastUsed db pid (some iid) now = some (db2, r)
      ∧ db2.find? (fun x => x.oid = pid)
          = some { d with instance_ids := InstVal.obj (setKey m iid now) }
      ∧ lookupKey (setKey m iid now) iid = some now)
    ∧ updateLastUsed [mkProxy "g1" (InstVal.obj [])] "g1" (some "a") 100
        = some ([mkProxy "g1" (InstVal.obj [("a", 100)])], true)
    ∧ updateLastUsed [mkProxy "g1" (InstVal.obj [("a", 100)])] "g1" (some "b") 101
        = some ([mkProxy "g1" (InstVal.obj [("a", 100), ("b", 101)])], true)
    ∧ updateLastUsed [mkProxy "g1" (InstVal.obj [("a", 100), ("b", 101)])] "g1" (some "c") 102
        = some ([mkProxy "g1" (InstVal.obj [("a", 100), ("b", 101), ("c", 102)])], true)
    ∧ (jsKeysLen (InstVal.obj [("a", 100), ("b", 101), ("c", 102)]) : Int)
        > exampleSettings.max_instances_per_proxy := by
  have hdp : d.oid = pid := by simpa using List.find?_some hd
  obtain ⟨l1, l2, hsplit, hl1⟩ := find?_decomp db _ d hd
  have hslt : setLeaseTime iid now d
      = some { d with instance_ids := InstVal.obj (setKey m iid now) } := by
    simp [setLeaseTime, hm]
  refine ⟨?_, by decide, by decide, by decide, by decide⟩
  simp only [updateLastUsed]
  rw [hd]
  dsimp only
  rw [hslt]
  dsimp only
  refine ⟨_, _, rfl, ?_, lookupKey_setKey_self m iid now⟩
  rw [hsplit]
  rw [updateOne_appendCons l1 l2 d _ _ hl1 (by simp [hdp])]
  dsimp only
  rw [show ((setLeaseTime iid now d).getD d)
      = { d with instance_ids := InstVal.obj (setKey m iid now) } by
    rw [hslt]
    rfl]
  exact find?_appendCons l1 l2 _ _ hl1 (by simp [hdp])

/-- Witness for C9: refreshing a lease that did not exist beforehand. -/
theorem refresh_creates_lease_unbounded_witness :
    ∃ db2 r, updateLastUsed [mkProxy "w1" (InstVal.obj [])] "w1" (some "i9") 100
        = some (db2, r)
      ∧ db2.find? (fun x => x.oid = "w1")
          = some { mkProxy "w1" (InstVal.obj []) with
              instance_ids := InstVal.obj (setKey [] "i9" 100) }
      ∧ lookupKey (setKey [] "i9" 100) "i9" = some 100 :=
  (refresh_creates_lease_unbounded [mkProxy "w1" (InstVal.obj [])] "w1" "i9" 100
      (mkProxy "w1" (InstVal.obj [])) [] (by decide) rfl).1

end ProxyNest
